import Mathlib

/-!
# Verification of the GNS3 server RBAC repository

Shallow embedding of `gns3server/db/repositories/rbac.py`: the Role / Privilege /
ACE data model, the hierarchical permission resolver `check_user_has_privilege`,
the membership operations `add_privilege_to_role` / `remove_privilege_from_role`,
the partial update `update_role`, the bulk prefix delete
`delete_all_ace_starting_with_path` and the existence check `check_ace_exists`.

The database session is modelled as an explicit state (`DBState`); SQLAlchemy
queries become pure functions over that state, and mutating repository methods
become state transformers.  Python strings are Lean `String`s, UUIDs are `Nat`s,
timestamps are a logical clock (`Nat`).
-/

namespace Rbac

/-- A row of the `roles` table (`models.Role`).  `updated_at` is a logical
timestamp assigned from the session clock. -/
structure Role where
  role_id : Nat
  name : String
  description : Option String
  updated_at : Nat
  deriving Repr, DecidableEq

/-- A row of the `privileges` table (`models.Privilege`). -/
structure Privilege where
  privilege_id : Nat
  name : String
  deriving Repr, DecidableEq

/-- A row of the `aces` table (`models.ACE`).  `user_id` is `none` for
group-typed entries (the `join(models.ACE.user)` in the resolver is an inner
join, so such entries never reach the resolver). -/
structure ACE where
  ace_id : Nat
  ace_type : String
  path : String
  user_id : Option Nat
  group_id : Option Nat
  role_id : Nat
  allowed : Bool
  propagate : Bool
  deriving Repr, DecidableEq

/-- The database state seen by one repository: the `users`, `roles`,
`privileges` and `aces` tables, the `role_privilege_link` association table
(pairs `(role_id, privilege_id)`), and a logical clock used to assign
`updated_at` timestamps. -/
structure DBState where
  users : List Nat
  roles : List Role
  privileges : List Privilege
  role_privileges : List (Nat × Nat)
  aces : List ACE
  clock : Nat
  deriving Repr, DecidableEq

/-! ## `urllib.parse.urlparse(path).path`

`check_user_has_privilege` runs the queried path through `urlparse` and keeps
only the path component.  We model CPython's `urlsplit` (leading C0/space
strip, tab/CR/LF removal, scheme, `//netloc`, `#fragment`, `?query`) followed
by `urlparse`'s `;params` split on the last segment. -/

/-- C0 control characters and space, stripped from the front of the URL. -/
def isC0ControlOrSpace (c : Char) : Bool := c.toNat ≤ 32

/-- Tab, CR and LF are removed from anywhere in the URL. -/
def isUnsafeUrlChar (c : Char) : Bool := c = '\t' || c = '\r' || c = '\n'

/-- Characters allowed inside a URL scheme after the leading letter. -/
def isSchemeChar (c : Char) : Bool := c.isAlphanum || c = '+' || c = '-' || c = '.'

/-- Python `str.split(sep)` for a one-character separator, over character
lists (`"".split(sep)` is `[""]`). -/
def splitOnChar (sep : Char) : List Char → List (List Char)
  | [] => [[]]
  | c :: rest =>
    let r := splitOnChar sep rest
    if c == sep then [] :: r
    else
      match r with
      | [] => [[c]]
      | seg :: segs => (c :: seg) :: segs

/-- Python `sep.join(...)` for a one-character separator, over character
lists. -/
def joinChar (sep : Char) : List (List Char) → List Char
  | [] => []
  | [seg] => seg
  | seg :: rest => seg ++ sep :: joinChar sep rest

/-- Lexicographic order on character lists by code point — the order used by
the database for `ORDER BY path` (byte order; identical to code-point order on
the ASCII paths at hand). -/
def charListLt : List Char → List Char → Bool
  | [], [] => false
  | [], _ :: _ => true
  | _ :: _, [] => false
  | a :: as, b :: bs =>
    if a.toNat < b.toNat then true
    else if b.toNat < a.toNat then false
    else charListLt as bs

/-- String order used for `ORDER BY path DESC`. -/
def strLt (a b : String) : Bool := charListLt a.toList b.toList

/-- Scan for a `:` terminating a valid scheme; `some rest` is everything after
the colon, `none` means no scheme split happens. -/
def schemeRest : List Char → Option (List Char)
  | [] => none
  | ':' :: rest => some rest
  | c :: rest => if isSchemeChar c then schemeRest rest else none

/-- Drop a leading `scheme:` when the first character is an ASCII letter and
every character before the first `:` is a scheme character. -/
def dropScheme (cs : List Char) : List Char :=
  match cs with
  | [] => []
  | c :: rest =>
    if c.isAlpha then
      match schemeRest rest with
      | some r => r
      | none => cs
    else cs

/-- Drop a leading `//netloc`: everything from the `//` up to (excluding) the
next `/`, `?` or `#`. -/
def dropNetloc (cs : List Char) : List Char :=
  match cs with
  | '/' :: '/' :: rest => rest.dropWhile (fun c => c ≠ '/' && c ≠ '?' && c ≠ '#')
  | _ => cs

/-- `urlparse`'s params split: remove a `;params` suffix from the last
`/`-segment (from the first `;` at or after the last `/`; when there is no `/`,
from the first `;` anywhere). -/
def dropParams (cs : List Char) : List Char :=
  if cs.contains '/' then
    let segs := splitOnChar '/' cs
    match segs.getLast? with
    | some last => joinChar '/' (segs.dropLast ++ [last.takeWhile (fun c => !(c == ';'))])
    | none => cs
  else
    cs.takeWhile (fun c => !(c == ';'))

/-- The `.path` component of `urllib.parse.urlparse`, over character lists. -/
def urlparsePathAux (url : List Char) : List Char :=
  let cs := (url.dropWhile isC0ControlOrSpace).filter (fun c => !isUnsafeUrlChar c)
  let cs := dropScheme cs
  let cs := dropNetloc cs
  let cs := cs.takeWhile (fun c => !(c == '#'))
  let cs := cs.takeWhile (fun c => !(c == '?'))
  dropParams cs

/-- The `.path` component of `urllib.parse.urlparse`. -/
def urlparse_path (url : String) : String :=
  String.mk (urlparsePathAux url.toList)

/-! ## The permission resolver -/

/-- One row of the candidate query in `check_user_has_privilege`:
`select(models.ACE.path, models.ACE.propagate, models.ACE.allowed, models.Privilege.name)`. -/
structure AceRow where
  path : String
  propagate : Bool
  allowed : Bool
  privilege : String
  deriving Repr, DecidableEq

/-- Stable insertion of a row into a list sorted by `path` descending (an
earlier row stays before a later row with an equal path). -/
def insertDesc (a : AceRow) : List AceRow → List AceRow
  | [] => [a]
  | b :: l => if strLt a.path b.path then b :: insertDesc a l else a :: b :: l

/-- `order_by(models.ACE.path.desc())`: stable sort by path, descending. -/
def sortByPathDesc : List AceRow → List AceRow
  | [] => []
  | a :: l => insertDesc a (sortByPathDesc l)

/-- The candidate query of `check_user_has_privilege`: join the privilege to
its roles (`role_privilege_link`), each role to its ACEs, each ACE to its user,
filter on the queried `user_id` and privilege `name`, order by path descending. -/
def candidateRows (user_id : Nat) (privilege_name : String) (s : DBState) : List AceRow :=
  sortByPathDesc <| s.aces.flatMap fun ace =>
    s.role_privileges.flatMap fun rp =>
      s.privileges.filterMap fun priv =>
        if rp.1 == ace.role_id && rp.2 == priv.privilege_id
            && ace.user_id == some user_id && s.users.contains user_id
            && priv.name == privilege_name then
          some ⟨ace.path, ace.propagate, ace.allowed, priv.name⟩
        else
          none

/-- `"/".join(path_components[:i])`, with the Python falsy-empty-string check
replacing an empty join by `"/"`. -/
def joinLevel (components : List (List Char)) (i : Nat) : String :=
  let p := joinChar '/' (components.take i)
  if p.isEmpty then "/" else String.mk p

/-- The ancestor chain scanned by the resolver: for
`i in range(len(path_components), 0, -1)` join the first `i` components, i.e.
the full parsed path first, then each shorter prefix, down to `"/"`. -/
def ancestorChain (path : String) : List String :=
  let components := splitOnChar '/' (urlparsePathAux path.toList)
  (List.range components.length).reverse.map fun j => joinLevel components (j + 1)

/-- The inner loop of the resolver at one ancestor level: scan the candidate
rows in order; the first row whose path equals the level returns `false` when
it is a deny, `true` when it is an allow at the original path or with
`propagate`, and otherwise the scan continues; `none` when the loop falls
through. -/
def scanLevel (rows : List AceRow) (level original : String) : Option Bool :=
  match rows with
  | [] => none
  | a :: rest =>
    if a.path == level then
      if !a.allowed then some false
      else if level == original || a.propagate then some true
      else scanLevel rest level original
    else scanLevel rest level original

/-- The outer loop of the resolver: walk the ancestor chain most specific
first; the first level whose scan returns a decision decides, otherwise the
default is `false`. -/
def resolvePath (chain : List String) (rows : List AceRow) (original : String) : Bool :=
  match chain with
  | [] => false
  | level :: rest =>
    match scanLevel rows level original with
    | some b => b
    | none => resolvePath rest rows original

/-- `check_user_has_privilege(user_id, path, privilege_name)`: run the
candidate query, then resolve the ancestor chain of the (url-parsed) path
against it.  The method only executes a `select`, so the state is returned
unchanged. -/
def check_user_has_privilege (user_id : Nat) (path : String) (privilege_name : String)
    (s : DBState) : Bool × DBState :=
  let rows := candidateRows user_id privilege_name s
  (resolvePath (ancestorChain path) rows path, s)

/-! ## ACE existence check and bulk prefix delete -/

/-- `check_ace_exists(path)`: `select(models.ACE).where(models.ACE.path == path)`,
then `first() is not None` — an exact-path existence test with no filter on the
subject or role of the entry.  A `select` leaves the state unchanged. -/
def check_ace_exists (path : String) (s : DBState) : Bool × DBState :=
  (s.aces.any (fun a => a.path == path), s)

/-- `delete_all_ace_starting_with_path(path)`:
`delete(models.ACE).where(models.ACE.path.startswith(path))`, then the row
count is written to the debug log.  The first component of the result is the
Python return value (the method has no `return` statement, so it is `None`);
the second is the row count that is logged. -/
def delete_all_ace_starting_with_path (path : String) (s : DBState) :
    (Option Nat × Nat) × DBState :=
  let deleted := s.aces.filter (fun a => path.toList.isPrefixOf a.path.toList)
  let remaining := s.aces.filter (fun a => !path.toList.isPrefixOf a.path.toList)
  ((none, deleted.length), { s with aces := remaining })

/-! ## Membership management and role update -/

/-- Modelled from the spec: the error-taxonomy layer of §7 that surfaces the
Python `ValueError` raised by `list.remove` on the `Role.privileges`
collection as the `InvalidMembership` ("not a member") domain error; the
translation layer is not among the provided sources. -/
inductive RbacError where
  | invalidMembership
  deriving Repr, DecidableEq

/-- The privilege ids attached to a role through the `role_privilege_link`
association table — the loaded `Role.privileges` collection. -/
def rolePrivIds (s : DBState) (role_id : Nat) : List Nat :=
  (s.role_privileges.filter (fun rp => rp.1 == role_id)).map (fun rp => rp.2)

/-- `select(models.Role).options(selectinload(models.Role.privileges)).where(models.Role.role_id == role_id)`,
`first()`: the role row together with its loaded privilege-id collection. -/
def findRole (s : DBState) (role_id : Nat) : Option Role :=
  s.roles.find? (fun r => r.role_id == role_id)

/-- Modelled from the spec: `role_db.privileges.append(privilege)` on the
association collection defined in `gns3server.db.models` (not among the
provided sources) — duplicate-add "must not raise if already present (treat as
upsert into a set)". -/
def appendPrivilege (assoc : List (Nat × Nat)) (role_id privilege_id : Nat) :
    List (Nat × Nat) :=
  if (role_id, privilege_id) ∈ assoc then assoc
  else assoc ++ [(role_id, privilege_id)]

/-- `add_privilege_to_role(role_id, privilege)`: load the role with its
privileges; `None` when it does not exist; otherwise append the privilege to
the collection, commit, refresh, and return the role with its (refreshed)
privilege collection. -/
def add_privilege_to_role (role_id : Nat) (priv : Privilege) (s : DBState) :
    Option (Role × List Nat) × DBState :=
  match findRole s role_id with
  | none => (none, s)
  | some r =>
    let s2 := { s with
      role_privileges := appendPrivilege s.role_privileges role_id priv.privilege_id }
    (some (r, rolePrivIds s2 role_id), s2)

/-- `remove_privilege_from_role(role_id, privilege)`: load the role with its
privileges; `None` when it does not exist; otherwise
`role_db.privileges.remove(privilege)` — Python `list.remove`, which removes
the first occurrence and raises when the privilege is not in the collection
(surfaced as `RbacError.invalidMembership`); then commit, refresh and return
the role with its collection.  On the error path nothing was mutated or
committed, so the state is unchanged. -/
def remove_privilege_from_role (role_id : Nat) (priv : Privilege) (s : DBState) :
    Except RbacError (Option (Role × List Nat)) × DBState :=
  match findRole s role_id with
  | none => (Except.ok none, s)
  | some r =>
    if (role_id, priv.privilege_id) ∈ s.role_privileges then
      let s2 := { s with
        role_privileges := s.role_privileges.erase (role_id, priv.privilege_id) }
      (Except.ok (some (r, rolePrivIds s2 role_id)), s2)
    else
      (Except.error RbacError.invalidMembership, s)

/-- Modelled from the spec: `schemas.RoleUpdate` (not among the provided
sources) — the partial-update payload, a field mask where `none` means the
field was not provided (`model_dump(exclude_unset=True)` drops it). -/
structure RoleUpdate where
  name : Option String := none
  description : Option String := none
  deriving Repr, DecidableEq

/-- The effect of `update(models.Role).values(update_values)` on one matched
row: the provided fields overwrite the row and the `updated_at` column is
refreshed from the clock. -/
def applyRoleUpdate (u : RoleUpdate) (now : Nat) (r : Role) : Role :=
  { r with
    name := u.name.getD r.name,
    description := (u.description.map some).getD r.description,
    updated_at := now }

/-- `update_role(role_id, role_update)`: execute an `UPDATE` of the provided
fields on the rows matching `role_id` (zero rows when the id does not exist),
commit, re-select the role and refresh it; return `None` when the id does not
exist.  The logical clock advances at the commit. -/
def update_role (role_id : Nat) (u : RoleUpdate) (s : DBState) :
    Option (Role × List Nat) × DBState :=
  let s2 := { s with
    roles := s.roles.map (fun r => if r.role_id == role_id then applyRoleUpdate u s.clock r else r),
    clock := s.clock + 1 }
  match findRole s2 role_id with
  | none => (none, s2)
  | some r => (some (r, rolePrivIds s2 role_id), s2)

/-! ## Helper lemmas about the resolver loops -/

/-- The outer loop returns the decision of the first level whose inner scan is
decisive, and `false` when no level is. -/
theorem resolvePath_eq_findSome (chain : List String) (rows : List AceRow) (orig : String) :
    resolvePath chain rows orig
      = ((chain.findSome? fun l => scanLevel rows l orig).getD false) := by
  induction chain with
  | nil => rfl
  | cons level rest ih =>
    rw [resolvePath, List.findSome?]
    cases h : scanLevel rows level orig <;> simp [h, ih]

/-- The inner scan of a level with no matching row falls through. -/
theorem scanLevel_eq_none (rows : List AceRow) (level orig : String)
    (h : ∀ a ∈ rows, a.path ≠ level) : scanLevel rows level orig = none := by
  induction rows with
  | nil => rfl
  | cons a rest ih =>
    have ha : (a.path == level) = false := by
      simpa using h a (List.mem_cons_self a rest)
    rw [scanLevel, ha]
    simp only [Bool.false_eq_true, if_false]
    exact ih fun b hb => h b (List.mem_cons_of_mem a hb)

/-- The inner scan returns `false` when a deny sits at the level and every row
scanned before it is not a decisive allow at that level: each earlier row
either misses the level, or is itself a deny (then that deny ends the scan
with `false` even sooner), or is an allow that neither sits at the original
path nor propagates (the scan continues past it). -/
theorem scanLevel_deny_before_decisive (r1 r2 : List AceRow) (d : AceRow) (level orig : String)
    (h1 : ∀ a ∈ r1, a.path = level → a.allowed = true → level ≠ orig ∧ a.propagate = false)
    (hd : d.path = level) (hdeny : d.allowed = false) :
    scanLevel (r1 ++ d :: r2) level orig = some false := by
  induction r1 with
  | nil => simp [scanLevel, hd, hdeny]
  | cons a rest ih =>
    rw [List.cons_append, scanLevel]
    by_cases hp : a.path = level
    · have hb : (a.path == level) = true := by simpa using hp
      rw [hb, if_pos rfl]
      cases hal : a.allowed with
      | false => simp
      | true =>
        obtain ⟨hno, hnp⟩ := h1 a (List.mem_cons_self a rest) hp hal
        have hdec : (level == orig || a.propagate) = false := by
          simp [hnp, hno]
        simp only [Bool.not_true, Bool.false_eq_true, if_false, hdec]
        exact ih fun b hb' => h1 b (List.mem_cons_of_mem a hb')
    · have hb : (a.path == level) = false := by simpa using hp
      rw [hb]
      simp only [Bool.false_eq_true, if_false]
      exact ih fun b hb' => h1 b (List.mem_cons_of_mem a hb')

/-- The outer loop skips levels whose scan falls through and returns the
decision of the first decisive level. -/
theorem resolvePath_first_decisive (pre post : List String) (level : String)
    (rows : List AceRow) (orig : String) (b : Bool)
    (hpre : ∀ l ∈ pre, scanLevel rows l orig = none)
    (hlevel : scanLevel rows level orig = some b) :
    resolvePath (pre ++ level :: post) rows orig = b := by
  induction pre with
  | nil => simp [resolvePath, hlevel]
  | cons l rest ih =>
    rw [List.cons_append, resolvePath, hpre l (List.mem_cons_self l rest)]
    exact ih fun l' hl' => hpre l' (List.mem_cons_of_mem l hl')

/-- The outer loop returns `false` when every level's scan falls through. -/
theorem resolvePath_eq_false (chain : List String) (rows : List AceRow) (orig : String)
    (h : ∀ l ∈ chain, scanLevel rows l orig = none) : resolvePath chain rows orig = false := by
  induction chain with
  | nil => rfl
  | cons l rest ih =>
    rw [resolvePath, h l (List.mem_cons_self l rest)]
    exact ih fun l' hl' => h l' (List.mem_cons_of_mem l hl')

/-- Membership in the loaded privilege collection of a role is membership in
the association table. -/
theorem mem_rolePrivIds (s : DBState) (rid pid : Nat) :
    pid ∈ rolePrivIds s rid ↔ (rid, pid) ∈ s.role_privileges := by
  constructor
  · intro h
    simp only [rolePrivIds, List.mem_map, List.mem_filter, beq_iff_eq] at h
    obtain ⟨⟨a, b⟩, ⟨hmem, h1⟩, h2⟩ := h
    simp only at h1 h2
    subst h1; subst h2
    exact hmem
  · intro h
    simp only [rolePrivIds, List.mem_map, List.mem_filter, beq_iff_eq]
    exact ⟨(rid, pid), ⟨h, rfl⟩, rfl⟩

/-- `find?` over the row map performed by an SQL `UPDATE ... WHERE role_id = rid`,
for an update that does not touch the key column. -/
theorem findRole_after_update (roles : List Role) (rid : Nat) (f : Role → Role)
    (hf : ∀ r, (f r).role_id = r.role_id) :
    (roles.map fun r => if r.role_id == rid then f r else r).find? (fun r => r.role_id == rid)
      = (roles.find? fun r => r.role_id == rid).map f := by
  induction roles with
  | nil => rfl
  | cons r rest ih =>
    by_cases h : r.role_id = rid
    · simp [List.find?, h, hf]
    · have hb : (r.role_id == rid) = false := by simpa using h
      simp only [List.map_cons, hb, Bool.false_eq_true, if_false, List.find?, Option.map]
      exact ih

/-! ## Demonstration states -/

/-- A state whose candidate set for `uid`/`pname` is exactly one allowing ACE
at `"/p1"` with the given propagate flag. -/
def stSingleAce (uid rid pid : Nat) (pname : String) (prop : Bool) : DBState :=
  { users := [uid], roles := [⟨rid, "role", none, 0⟩], privileges := [⟨pid, pname⟩],
    role_privileges := [(rid, pid)],
    aces := [⟨1, "user", "/p1", some uid, none, rid, true, prop⟩],
    clock := 1 }

/-- State for the most-specific-wins scenario: one ACE allowing with
`propagate` at `"/p1"` and one ACE denying exactly at `"/p1/nodeA"`, both for
the same user through a role carrying the privilege. -/
def stMostSpecific (uid rid pid : Nat) (pname : String) (dprop : Bool) : DBState :=
  { users := [uid], roles := [⟨rid, "role", none, 0⟩], privileges := [⟨pid, pname⟩],
    role_privileges := [(rid, pid)],
    aces := [⟨1, "user", "/p1", some uid, none, rid, true, true⟩,
             ⟨2, "user", "/p1/nodeA", some uid, none, rid, false, dprop⟩],
    clock := 1 }

/-- A state with one candidate ACE whose path matches no ancestor level of the
path `"/projects/42"`. -/
def stNoMatch : DBState :=
  { users := [1], roles := [⟨1, "role", none, 0⟩], privileges := [⟨1, "Project.Audit"⟩],
    role_privileges := [(1, 1)],
    aces := [⟨1, "user", "/other", some 1, none, 1, true, true⟩],
    clock := 1 }

/-! ## Claim theorems -/

/-- **C2** For every user and privilege, with a propagating allow at `"/p1"`
and a deny exactly at `"/p1/nodeA"`, `CheckPrivilege` at `"/p1/nodeA"` is
`false` (the deeper deny wins) and at `"/p1/nodeB"` is `true`; in general the
resolver scans the full path first, then each successively shorter
`/`-delimited prefix down to the root `"/"`, and the first decisive level
determines the result. -/
theorem check_most_specific_wins :
    (∀ (user_id : Nat) (pname path : String) (s : DBState),
      (check_user_has_privilege user_id path pname s).1
        = (((ancestorChain path).findSome? fun l =>
            scanLevel (candidateRows user_id pname s) l path).getD false))
    ∧ ancestorChain "/p1/nodeA" = ["/p1/nodeA", "/p1", "/"]
    ∧ (∀ (uid rid pid : Nat) (pname : String) (dprop : Bool),
      (check_user_has_privilege uid "/p1/nodeA" pname (stMostSpecific uid rid pid pname dprop)).1 = false
      ∧ (check_user_has_privilege uid "/p1/nodeB" pname (stMostSpecific uid rid pid pname dprop)).1 = true) := by
  refine ⟨fun user_id pname path s => ?_, by decide, fun uid rid pid pname dprop => ?_⟩
  · exact resolvePath_eq_findSome (ancestorChain path) (candidateRows user_id pname s) path
  · have hlt : strLt "/p1" "/p1/nodeA" = true := by decide
    have hrows : candidateRows uid pname (stMostSpecific uid rid pid pname dprop)
        = [⟨"/p1/nodeA", dprop, false, pname⟩, ⟨"/p1", true, true, pname⟩] := by
      simp [candidateRows, stMostSpecific, sortByPathDesc, insertDesc, hlt]
    have hA : ancestorChain "/p1/nodeA" = ["/p1/nodeA", "/p1", "/"] := by decide
    have hB : ancestorChain "/p1/nodeB" = ["/p1/nodeB", "/p1", "/"] := by decide
    constructor
    · simp only [check_user_has_privilege, hrows, hA]
      simp [resolvePath, scanLevel]
    · simp only [check_user_has_privilege, hrows, hB]
      simp [resolvePath, scanLevel]

/-- **C3** For every user and privilege whose candidate set is a single
allowing ACE at `"/p1"`: the check at `"/p1"` itself is `true`; with
`propagate = false` the check at `"/p1/nodeA"` is `false`; with
`propagate = true` the check at `"/p1/nodeA"` is `true`. -/
theorem check_exact_allow_and_propagation (uid : Nat) (pname : String) (s : DBState) (prop : Bool)
    (hrows : candidateRows uid pname s = [⟨"/p1", prop, true, pname⟩]) :
    (check_user_has_privilege uid "/p1" pname s).1 = true
    ∧ (prop = false → (check_user_has_privilege uid "/p1/nodeA" pname s).1 = false)
    ∧ (prop = true → (check_user_has_privilege uid "/p1/nodeA" pname s).1 = true) := by
  have h1 : ancestorChain "/p1" = ["/p1", "/"] := by decide
  have h2 : ancestorChain "/p1/nodeA" = ["/p1/nodeA", "/p1", "/"] := by decide
  refine ⟨?_, fun hp => ?_, fun hp => ?_⟩
  · simp only [check_user_has_privilege, hrows, h1]
    simp [resolvePath, scanLevel]
  · subst hp
    simp only [check_user_has_privilege, hrows, h2]
    simp [resolvePath, scanLevel]
  · subst hp
    simp only [check_user_has_privilege, hrows, h2]
    simp [resolvePath, scanLevel]

/-- Witness for C3 at a concrete state, for both values of the propagate
flag. -/
theorem check_exact_allow_and_propagation_witness :
    ((check_user_has_privilege 7 "/p1" "Node.Start" (stSingleAce 7 1 2 "Node.Start" false)).1 = true
      ∧ (check_user_has_privilege 7 "/p1/nodeA" "Node.Start" (stSingleAce 7 1 2 "Node.Start" false)).1 = false)
    ∧ (check_user_has_privilege 7 "/p1/nodeA" "Node.Start" (stSingleAce 7 1 2 "Node.Start" true)).1 = true :=
  ⟨⟨(check_exact_allow_and_propagation 7 "Node.Start" (stSingleAce 7 1 2 "Node.Start" false) false
      (by decide)).1,
    (check_exact_allow_and_propagation 7 "Node.Start" (stSingleAce 7 1 2 "Node.Start" false) false
      (by decide)).2.1 rfl⟩,
   (check_exact_allow_and_propagation 7 "Node.Start" (stSingleAce 7 1 2 "Node.Start" true) true
      (by decide)).2.2 rfl⟩

/-- **C4** When the candidate set matches no ancestor level of the path,
`check_user_has_privilege` returns `false` and leaves the state unchanged; its
result type has no error channel, so no error can be raised ("no rule found"
is a normal deny). -/
theorem check_default_deny (uid : Nat) (path pname : String) (s : DBState)
    (h : ∀ l ∈ ancestorChain path, ∀ a ∈ candidateRows uid pname s, a.path ≠ l) :
    (check_user_has_privilege uid path pname s).1 = false
    ∧ (check_user_has_privilege uid path pname s).2 = s := by
  refine ⟨?_, rfl⟩
  show resolvePath _ _ _ = false
  exact resolvePath_eq_false _ _ _ fun l hl =>
    scanLevel_eq_none _ _ _ fun a ha => h l hl a ha

/-- Witness for C4: a nonempty candidate set whose single entry matches no
ancestor level of `"/projects/42"`. -/
theorem check_default_deny_witness :
    (check_user_has_privilege 1 "/projects/42" "Project.Audit" stNoMatch).1 = false
    ∧ (check_user_has_privilege 1 "/projects/42" "Project.Audit" stNoMatch).2 = stNoMatch :=
  check_default_deny 1 "/projects/42" "Project.Audit" stNoMatch (by decide)

/-- **C9** `check_user_has_privilege` only executes a `select`: the stored
roles, privileges, associations and ACEs after the call are those before the
call. -/
theorem check_user_has_privilege_readonly (uid : Nat) (path pname : String) (s : DBState) :
    (check_user_has_privilege uid path pname s).2 = s := rfl

/-- **C10** `check_ace_exists` is an exact-path existence test over all ACEs:
it returns `true` iff some ACE — of any subject and any role — has a path
string-equal to the queried path. -/
theorem check_ace_exists_iff (path : String) (s : DBState) :
    (check_ace_exists path s).1 = true ↔ ∃ a ∈ s.aces, a.path = path := by
  simp [check_ace_exists, List.any_eq_true]

/-- State where both an allow and a deny ACE sit at the same path `"/p1"` for
the same user, role and privilege, the allow row reaching the scan first
(the SQL order is only on the path, so either relative order of two rows with
equal paths can be served). -/
def stAllowBeforeDeny : DBState :=
  { users := [1], roles := [⟨1, "role", none, 0⟩], privileges := [⟨1, "X"⟩],
    role_privileges := [(1, 1)],
    aces := [⟨1, "user", "/p1", some 1, none, 1, true, false⟩,
             ⟨2, "user", "/p1", some 1, none, 1, false, false⟩],
    clock := 1 }

/-- As `stAllowBeforeDeny` but with the deny row reaching the scan first. -/
def stDenyBeforeAllow : DBState :=
  { users := [1], roles := [⟨1, "role", none, 0⟩], privileges := [⟨1, "X"⟩],
    role_privileges := [(1, 1)],
    aces := [⟨2, "user", "/p1", some 1, none, 1, false, false⟩,
             ⟨1, "user", "/p1", some 1, none, 1, true, false⟩],
    clock := 1 }

/-- **C1 counterexample** The candidate set holds an allow and a deny at
`"/p1"`, the most specific (indeed exact) matching level, yet the check of
`"/p1"` returns `true` because the allow entry is scanned first: the result is
not `false` independently of the scan order at that level. -/
theorem check_allow_deny_same_level_order_dependent :
    candidateRows 1 "X" stAllowBeforeDeny
      = [⟨"/p1", false, true, "X"⟩, ⟨"/p1", false, false, "X"⟩]
    ∧ (check_user_has_privilege 1 "/p1" "X" stAllowBeforeDeny).1 = true := by decide

/-- **C1 (amended)** At the most specific matching level (no earlier level of
the ancestor chain matches any candidate row), if a deny sits at that level
and is scanned before any decisive allow entry at that level — every
candidate row preceding it in scan order either misses the level, is itself a
deny, or is an allow that neither sits at the original path nor propagates —
then `check_user_has_privilege` returns `false`; a deny wins over a decisive
allow at the same level only under that order, not independently of it. -/
theorem check_deny_first_at_level (uid : Nat) (pname path : String) (s : DBState)
    (pre post : List String) (level : String) (r1 r2 : List AceRow) (d : AceRow)
    (hchain : ancestorChain path = pre ++ level :: post)
    (hpre : ∀ l ∈ pre, ∀ a ∈ candidateRows uid pname s, a.path ≠ l)
    (hrows : candidateRows uid pname s = r1 ++ d :: r2)
    (hfirst : ∀ a ∈ r1, a.path = level → a.allowed = true → level ≠ path ∧ a.propagate = false)
    (hd : d.path = level) (hdeny : d.allowed = false) :
    (check_user_has_privilege uid path pname s).1 = false := by
  show resolvePath (ancestorChain path) (candidateRows uid pname s) path = false
  rw [hchain]
  refine resolvePath_first_decisive pre post level _ path false (fun l hl => ?_) ?_
  · exact scanLevel_eq_none _ _ _ fun a ha => hpre l hl a ha
  · rw [hrows]
    exact scanLevel_deny_before_decisive r1 r2 d level path hfirst hd hdeny

/-- Witness for the amended C1, covering both shapes of "deny before any
decisive allow": the deny row scanned first at the exact level `"/p1"`, and a
non-decisive allow (non-propagating, at the strict ancestor `"/p1"` of the
queried `"/p1/nodeA"`) scanned before the deny at that same level. -/
theorem check_deny_first_at_level_witness :
    (check_user_has_privilege 1 "/p1" "X" stDenyBeforeAllow).1 = false
    ∧ (check_user_has_privilege 1 "/p1/nodeA" "X" stAllowBeforeDeny).1 = false :=
  ⟨check_deny_first_at_level 1 "X" "/p1" stDenyBeforeAllow
     [] ["/"] "/p1" [] [⟨"/p1", false, true, "X"⟩] ⟨"/p1", false, false, "X"⟩
     (by decide) (by decide) (by decide) (by decide) rfl rfl,
   check_deny_first_at_level 1 "X" "/p1/nodeA" stAllowBeforeDeny
     ["/p1/nodeA"] ["/"] "/p1" [⟨"/p1", false, true, "X"⟩] [] ⟨"/p1", false, false, "X"⟩
     (by decide) (by decide) (by decide) (by decide) rfl rfl⟩

/-- Three ACEs to exercise the bulk prefix delete: `"/a/bc"` and `"/a/b"` both
start with the string `"/a/b"`; `"/ax"` does not. -/
def stPrefixDemo : DBState :=
  { users := [1], roles := [], privileges := [], role_privileges := [],
    aces := [⟨1, "user", "/a/bc", some 1, none, 1, true, false⟩,
             ⟨2, "user", "/a/b", some 1, none, 1, true, false⟩,
             ⟨3, "user", "/ax", some 1, none, 1, true, false⟩],
    clock := 1 }

/-- **C5 counterexample** `delete_all_ace_starting_with_path "/a/b"` removes
two ACEs but returns `None` to its caller (the method has no return value):
the count of removed ACEs is only written to the debug log, it is not
reported to the caller. -/
theorem delete_all_ace_returns_none_not_count :
    (delete_all_ace_starting_with_path "/a/b" stPrefixDemo).1.1 = none
    ∧ (delete_all_ace_starting_with_path "/a/b" stPrefixDemo).1.2 = 2 := by decide

/-- **C5 (amended)** `delete_all_ace_starting_with_path` keeps exactly the
ACEs whose path does not start with the prefix under raw string-prefix
comparison (so `"/a/bc"` is removed by `"/a/b"` while `"/ax"` survives),
leaves all other tables unchanged, cannot error on zero matches (its result
type has no error channel), logs the count of removed rows, and returns
`None` to its caller. -/
theorem delete_all_ace_spec (path : String) (s : DBState) :
    (delete_all_ace_starting_with_path path s).1.1 = none
    ∧ (delete_all_ace_starting_with_path path s).1.2
        = (s.aces.filter fun a => path.toList.isPrefixOf a.path.toList).length
    ∧ (∀ a, a ∈ ((delete_all_ace_starting_with_path path s).2).aces
        ↔ a ∈ s.aces ∧ path.toList.isPrefixOf a.path.toList = false)
    ∧ ((delete_all_ace_starting_with_path path s).2).roles = s.roles
    ∧ ((delete_all_ace_starting_with_path path s).2).privileges = s.privileges
    ∧ ((delete_all_ace_starting_with_path path s).2).role_privileges = s.role_privileges
    ∧ ((delete_all_ace_starting_with_path path s).2).users = s.users
    ∧ ((delete_all_ace_starting_with_path "/a/b" stPrefixDemo).2).aces
        = [⟨3, "user", "/ax", some 1, none, 1, true, false⟩] := by
  refine ⟨rfl, rfl, fun a => ?_, rfl, rfl, rfl, rfl, by decide⟩
  simp [delete_all_ace_starting_with_path, List.mem_filter]

/-- A role holding one privilege, for the membership-management witnesses. -/
def stMembership : DBState :=
  { users := [], roles := [⟨1, "admin", none, 0⟩], privileges := [⟨2, "X"⟩],
    role_privileges := [(1, 2)], aces := [], clock := 5 }

/-- **C6** `remove_privilege_from_role` on an existing role: when the
privilege is attached it removes it from the role's privilege set; when it was
never attached it fails with the `InvalidMembership` ("not a member") error
surfaced to the caller, leaving the state untouched. -/
theorem remove_privilege_from_role_spec (rid : Nat) (priv : Privilege) (s : DBState) (r : Role)
    (hrole : findRole s rid = some r) (hnodup : s.role_privileges.Nodup) :
    ((rid, priv.privilege_id) ∈ s.role_privileges →
      (∃ privs, (remove_privilege_from_role rid priv s).1 = Except.ok (some (r, privs)))
      ∧ priv.privilege_id ∉ rolePrivIds (remove_privilege_from_role rid priv s).2 rid)
    ∧ ((rid, priv.privilege_id) ∉ s.role_privileges →
      (remove_privilege_from_role rid priv s).1 = Except.error RbacError.invalidMembership
      ∧ (remove_privilege_from_role rid priv s).2 = s) := by
  have hres : (rid, priv.privilege_id) ∈ s.role_privileges →
      remove_privilege_from_role rid priv s
        = (Except.ok (some (r, rolePrivIds
            { s with role_privileges := s.role_privileges.erase (rid, priv.privilege_id) } rid)),
           { s with role_privileges := s.role_privileges.erase (rid, priv.privilege_id) }) := by
    intro hmem
    simp [remove_privilege_from_role, hrole, hmem]
  constructor
  · intro hmem
    constructor
    · exact ⟨_, by rw [hres hmem]⟩
    · intro hc
      rw [mem_rolePrivIds] at hc
      have hc2 : (rid, priv.privilege_id) ∈ s.role_privileges.erase (rid, priv.privilege_id) := by
        simpa [remove_privilege_from_role, hrole, hmem] using hc
      exact hnodup.not_mem_erase hc2
  · intro hmem
    constructor <;> simp [remove_privilege_from_role, hrole, hmem]

/-- Witness for C6: removing the attached privilege 2 from role 1 succeeds
and detaches it; removing the never-attached privilege 3 surfaces
`InvalidMembership` and changes nothing. -/
theorem remove_privilege_from_role_spec_witness :
    ((∃ privs, (remove_privilege_from_role 1 ⟨2, "X"⟩ stMembership).1
        = Except.ok (some (⟨1, "admin", none, 0⟩, privs)))
      ∧ (2 : Nat) ∉ rolePrivIds (remove_privilege_from_role 1 ⟨2, "X"⟩ stMembership).2 1)
    ∧ ((remove_privilege_from_role 1 ⟨3, "Y"⟩ stMembership).1
        = Except.error RbacError.invalidMembership
      ∧ (remove_privilege_from_role 1 ⟨3, "Y"⟩ stMembership).2 = stMembership) :=
  ⟨(remove_privilege_from_role_spec 1 ⟨2, "X"⟩ stMembership ⟨1, "admin", none, 0⟩
      (by decide) (by decide)).1 (by decide),
   (remove_privilege_from_role_spec 1 ⟨3, "Y"⟩ stMembership ⟨1, "admin", none, 0⟩
      (by decide) (by decide)).2 (by decide)⟩

/-- A role holding one privilege, for the add-privilege witnesses. -/
def stAddState : DBState :=
  { users := [], roles := [⟨1, "admin", none, 0⟩], privileges := [⟨2, "X"⟩],
    role_privileges := [(1, 2)], aces := [], clock := 5 }

/-- **C7** `add_privilege_to_role` returns the not-found signal (`none`) and
changes nothing when the role id does not exist; when the role exists it
returns the role with the privilege now a member of its set, raising no error
even when the privilege already is a member (the duplicate add leaves the
association set unchanged), and appending the association otherwise. -/
theorem add_privilege_to_role_spec (rid : Nat) (priv : Privilege) (s : DBState) :
    (findRole s rid = none →
      (add_privilege_to_role rid priv s).1 = none ∧ (add_privilege_to_role rid priv s).2 = s)
    ∧ (∀ r, findRole s rid = some r →
      (∃ privs, (add_privilege_to_role rid priv s).1 = some (r, privs))
      ∧ priv.privilege_id ∈ rolePrivIds (add_privilege_to_role rid priv s).2 rid
      ∧ ((rid, priv.privilege_id) ∈ s.role_privileges →
          (add_privilege_to_role rid priv s).2 = s)
      ∧ ((rid, priv.privilege_id) ∉ s.role_privileges →
          ((add_privilege_to_role rid priv s).2).role_privileges
            = s.role_privileges ++ [(rid, priv.privilege_id)])) := by
  constructor
  · intro h
    constructor <;> simp [add_privilege_to_role, h]
  · intro r hr
    have hres : add_privilege_to_role rid priv s
        = (some (r, rolePrivIds
            { s with role_privileges := appendPrivilege s.role_privileges rid priv.privilege_id } rid),
           { s with role_privileges := appendPrivilege s.role_privileges rid priv.privilege_id }) := by
      simp [add_privilege_to_role, hr]
    refine ⟨⟨_, by rw [hres]⟩, ?_, fun hmem => ?_, fun hmem => ?_⟩
    · rw [mem_rolePrivIds]
      by_cases hmem : (rid, priv.privilege_id) ∈ s.role_privileges
      · simp [add_privilege_to_role, hr, appendPrivilege, hmem]
      · simp [add_privilege_to_role, hr, appendPrivilege, hmem]
    · simp [add_privilege_to_role, hr, appendPrivilege, hmem]
    · simp [add_privilege_to_role, hr, appendPrivilege, hmem]

/-- Witness for C7: a missing role id gives `none`; adding a new privilege to
role 1 succeeds and appends it; re-adding the already-attached privilege 2
leaves the state unchanged (and raises nothing). -/
theorem add_privilege_to_role_spec_witness :
    ((add_privilege_to_role 9 ⟨3, "Y"⟩ stAddState).1 = none
      ∧ (add_privilege_to_role 9 ⟨3, "Y"⟩ stAddState).2 = stAddState)
    ∧ (∃ privs, (add_privilege_to_role 1 ⟨3, "Y"⟩ stAddState).1 = some (⟨1, "admin", none, 0⟩, privs))
    ∧ (3 : Nat) ∈ rolePrivIds (add_privilege_to_role 1 ⟨3, "Y"⟩ stAddState).2 1
    ∧ (add_privilege_to_role 1 ⟨2, "X"⟩ stAddState).2 = stAddState :=
  ⟨(add_privilege_to_role_spec 9 ⟨3, "Y"⟩ stAddState).1 (by decide),
   ((add_privilege_to_role_spec 1 ⟨3, "Y"⟩ stAddState).2 ⟨1, "admin", none, 0⟩ (by decide)).1,
   ((add_privilege_to_role_spec 1 ⟨3, "Y"⟩ stAddState).2 ⟨1, "admin", none, 0⟩ (by decide)).2.1,
   ((add_privilege_to_role_spec 1 ⟨2, "X"⟩ stAddState).2 ⟨1, "admin", none, 0⟩ (by decide)).2.2.1
     (by decide)⟩

/-- One role with a name, a description and an old `updated_at`, for the
partial-update witness. -/
def stUpdState : DBState :=
  { users := [], roles := [⟨1, "admin", some "old", 3⟩], privileges := [],
    role_privileges := [], aces := [], clock := 7 }

/-- **C8** `update_role` applies exactly the provided fields of the payload:
an omitted `name` (resp. `description`) is left unchanged, a provided field
overwrites the stored one, and the returned record carries a fresh
`updated_at` (strictly newer than the stored one, assuming the stored
timestamp predates the current clock); a nonexistent role id yields the
not-found signal `none`.  The payload is assumed to provide at least one
field. -/
theorem update_role_spec (rid : Nat) (u : RoleUpdate) (s : DBState)
    (hprovided : u.name.isSome ∨ u.description.isSome) :
    (findRole s rid = none → (update_role rid u s).1 = none)
    ∧ (∀ r, findRole s rid = some r → r.updated_at < s.clock →
      (∃ privs, (update_role rid u s).1 = some (applyRoleUpdate u s.clock r, privs))
      ∧ (u.name = none → (applyRoleUpdate u s.clock r).name = r.name)
      ∧ (∀ n, u.name = some n → (applyRoleUpdate u s.clock r).name = n)
      ∧ (u.description = none → (applyRoleUpdate u s.clock r).description = r.description)
      ∧ (∀ d, u.description = some d → (applyRoleUpdate u s.clock r).description = some d)
      ∧ r.updated_at < (applyRoleUpdate u s.clock r).updated_at) := by
  have hfind : findRole { s with
        roles := s.roles.map fun x => if x.role_id == rid then applyRoleUpdate u s.clock x else x,
        clock := s.clock + 1 } rid
      = (findRole s rid).map (applyRoleUpdate u s.clock) :=
    findRole_after_update s.roles rid _ fun x => rfl
  constructor
  · intro h
    simp only [update_role, hfind, h]
    rfl
  · intro r hr hclock
    refine ⟨⟨_, by simp only [update_role, hfind, hr]; rfl⟩,
      fun hn => ?_, fun n hn => ?_, fun hd => ?_, fun d hd => ?_, ?_⟩
    · simp [applyRoleUpdate, hn]
    · simp [applyRoleUpdate, hn]
    · simp [applyRoleUpdate, hd]
    · simp [applyRoleUpdate, hd]
    · simpa [applyRoleUpdate] using hclock

/-- Witness for C8: updating only the description of role 1 keeps the name
`"admin"`, stores the new description and advances `updated_at`; updating the
missing role 9 yields `none`. -/
theorem update_role_spec_witness :
    (update_role 9 ⟨none, some "new"⟩ stUpdState).1 = none
    ∧ (∃ privs, (update_role 1 ⟨none, some "new"⟩ stUpdState).1
        = some (applyRoleUpdate ⟨none, some "new"⟩ stUpdState.clock ⟨1, "admin", some "old", 3⟩, privs))
    ∧ (applyRoleUpdate ⟨none, some "new"⟩ stUpdState.clock ⟨1, "admin", some "old", 3⟩).name = "admin"
    ∧ (applyRoleUpdate ⟨none, some "new"⟩ stUpdState.clock ⟨1, "admin", some "old", 3⟩).description
        = some "new"
    ∧ (3 : Nat) < (applyRoleUpdate ⟨none, some "new"⟩ stUpdState.clock ⟨1, "admin", some "old", 3⟩).updated_at :=
  ⟨(update_role_spec 9 ⟨none, some "new"⟩ stUpdState (by decide)).1 (by decide),
   ((update_role_spec 1 ⟨none, some "new"⟩ stUpdState (by decide)).2 ⟨1, "admin", some "old", 3⟩
      (by decide) (by decide)).1,
   ((update_role_spec 1 ⟨none, some "new"⟩ stUpdState (by decide)).2 ⟨1, "admin", some "old", 3⟩
      (by decide) (by decide)).2.1 rfl,
   ((update_role_spec 1 ⟨none, some "new"⟩ stUpdState (by decide)).2 ⟨1, "admin", some "old", 3⟩
      (by decide) (by decide)).2.2.2.2.1 "new" rfl,
   ((update_role_spec 1 ⟨none, some "new"⟩ stUpdState (by decide)).2 ⟨1, "admin", some "old", 3⟩
      (by decide) (by decide)).2.2.2.2.2⟩

end Rbac
